import Mathlib

/-!
# Verification of the trading-dashboard aggregation and derived-metrics core

Shallow embedding of the dashboard's polling/aggregation engine:
* `src/api.ts` — typed API client and per-strategy fan-out aggregation
  (`fetchAllTrades`, `fetchStrategiesByPlatform`, `fetchTradesByPlatform`);
* `StrategyHealth` (part_005) — `timeAgo`, `computeSignalsPerHour`,
  `buildAlerts`, and the per-strategy signals fetch with its catch-to-empty
  substitution;
* `EquityCurve` (part_007) — the running-peak drawdown series;
* `TradeExplorer` (part_010) — the filter pipeline and the `active`
  staleness-guard of the polling effect;
* the legacy express server (part_000) — the `/api/alerts` JSONL handler.

Conventions: JavaScript numbers are modelled as `ℚ`, timestamps as `ℤ`
epoch milliseconds (the code only ever compares and subtracts instants
obtained from `Date` parsing, which is the transport layer), rejected
promises as `Except String`, and `undefined` fields as `Option`.
-/

namespace TradingDashboard

/-! ## JavaScript numeric primitives -/

/-- `Math.round`: round half toward positive infinity, `⌊x + 1/2⌋`. -/
def jsRound (q : ℚ) : ℤ := Int.floor (q + 1/2)

/-- Decimal digits of a natural number, padded on the left with zeros to
width `d` (used for the fractional part of `toFixed`). -/
def padDigits (n : ℕ) (d : ℕ) : String :=
  let s := toString n
  String.mk (List.replicate (d - s.length) '0') ++ s

/-- `Number.prototype.toFixed(d)` on an exact rational: the integer `n`
closest to `q·10^d` (larger one on ties) rendered with `d` decimal places. -/
def toFixedQ (q : ℚ) (d : ℕ) : String :=
  let scaled : ℤ := Int.floor (q * (10 : ℚ) ^ d + 1/2)
  let sign := if scaled < 0 then "-" else ""
  let m := scaled.natAbs
  if d = 0 then sign ++ toString m
  else sign ++ toString (m / 10 ^ d) ++ "." ++ padDigits (m % 10 ^ d) d

/-! ## Data model (`src/api.ts` interfaces) -/

/-- `StrategyData` from `api.ts`.  `exchanges` is declared `string[]` but the
platform filter reads it with `?.`, so it is modelled as optional. -/
structure StrategyData where
  name : String
  enabled : Bool
  totalTrades : ℕ
  winRate : ℚ
  avgWin : ℚ
  avgLoss : ℚ
  totalPnl : ℚ
  profitFactor : ℚ
  sharpeRatio : ℚ
  sortinoRatio : ℚ
  maxDrawdown : ℚ
  expectancy : ℚ
  avgHoldMinutes : ℚ
  exchanges : Option (List String)
deriving Repr, DecidableEq, Inhabited

/-- `SignalData` from `api.ts` (metadata omitted: opaque payload). -/
structure SignalData where
  id : ℤ
  timestamp : ℤ
  asset : String
  exchange : String
  direction : String
  confidence : ℚ
  entryPrice : ℚ
  actedOn : Bool
deriving Repr, DecidableEq, Inhabited

/-- `SignalsResponse` from `api.ts`. -/
structure SignalsResponse where
  signals : List SignalData
  total : ℕ
  limit : ℕ
  offset : ℕ
deriving Repr, DecidableEq, Inhabited

/-- `TradeData` from `api.ts` (metadata omitted: opaque payload). -/
structure TradeData where
  id : ℤ
  asset : String
  exchange : String
  direction : String
  entryPrice : ℚ
  entryTime : ℤ
  quantity : ℚ
  exitPrice : Option ℚ
  exitTime : Option ℤ
  exitReason : Option String
  realisedPnl : ℚ
  status : String
deriving Repr, DecidableEq, Inhabited

/-- `TradeWithStrategy = TradeData & { strategy: string }`. -/
structure TradeWithStrategy extends TradeData where
  strategy : String
deriving Repr, DecidableEq, Inhabited

/-! ## API environment

Each remote endpoint either resolves to a payload or rejects
(`apiFetch` throws on a non-ok response); a rejected promise is an
`Except.error`. -/

/-- The remote endpoints the aggregation helpers consume. -/
structure ApiEnv where
  strategiesResult : Except String (List StrategyData)
  tradesResult : String → Except String (List TradeData)
  signalsResult : String → Except String SignalsResponse

/-- `r.trades.map(t => ({ ...t, strategy: s.name }))`. -/
def tagTrades (name : String) (ts : List TradeData) : List TradeWithStrategy :=
  ts.map fun t => { t with strategy := name }

/-- `Promise.all`: resolves with the list of results when every promise
resolves, rejects as soon as any promise rejects.  (JS rejects with the
first rejection in completion-time order; we surface the first in list
order — which rejection wins is not observable to the claims below.) -/
def promiseAll : List (Except String α) → Except String (List α)
  | [] => Except.ok []
  | r :: rs => do
    let x ← r
    let xs ← promiseAll rs
    return x :: xs

/-- `fetchAllTrades`: fan out one trades request per strategy with
`Promise.all` (any rejection rejects the whole aggregation) and flatten. -/
def fetchAllTrades (env : ApiEnv) : Except String (List TradeWithStrategy) := do
  let strategies ← env.strategiesResult
  let results ← promiseAll
    (strategies.map fun s => (env.tradesResult s.name).map (tagTrades s.name))
  return results.flatten

/-- The pure core of `fetchStrategiesByPlatform`:
`all.strategies.filter(s => s.exchanges?.includes(platform))`. -/
def strategiesByPlatform (platform : String) (all : List StrategyData) : List StrategyData :=
  all.filter fun s =>
    match s.exchanges with
    | some ex => ex.contains platform
    | none => false

/-- `fetchStrategiesByPlatform`. -/
def fetchStrategiesByPlatform (env : ApiEnv) (platform : String) :
    Except String (List StrategyData) := do
  let all ← env.strategiesResult
  return strategiesByPlatform platform all

/-- `fetchTradesByPlatform`: like `fetchAllTrades` but over the
platform-filtered strategy set. -/
def fetchTradesByPlatform (env : ApiEnv) (platform : String) :
    Except String (List TradeWithStrategy) := do
  let strategies ← fetchStrategiesByPlatform env platform
  let results ← promiseAll
    (strategies.map fun s => (env.tradesResult s.name).map (tagTrades s.name))
  return results.flatten

/-! ## StrategyHealth derived metrics (part_005) -/

/-- `const SILENT_THRESHOLD_MIN = 60`. -/
def SILENT_THRESHOLD_MIN : ℚ := 60

/-- `timeAgo(iso)` with `ms = Date.now() - new Date(iso).getTime()`
made explicit as `now - ts`. -/
def timeAgo (now ts : ℤ) : String :=
  let ms := now - ts
  if ms < 0 then "just now"
  else
    let secs := jsRound ((ms : ℚ) / 1000)
    if secs < 60 then toString secs ++ "s ago"
    else
      let mins := jsRound ((secs : ℚ) / 60)
      if mins < 60 then toString mins ++ "m ago"
      else
        let hrs := mins / 60
        let remMins := mins % 60
        if 0 < remMins then toString hrs ++ "h " ++ toString remMins ++ "m ago"
        else toString hrs ++ "h ago"

/-- `computeSignalsPerHour` over the newest-first signal list. -/
def computeSignalsPerHour (signals : List SignalData) : ℚ :=
  if signals.length < 2 then 0
  else
    match signals.head?, signals.getLast? with
    | some newest, some oldest =>
      let spanHrs : ℚ := ((newest.timestamp - oldest.timestamp : ℤ) : ℚ) / 3600000
      if spanHrs ≤ 0 then 0
      else (signals.length : ℚ) / spanHrs
    | _, _ => 0

/-- Severity of a health alert. -/
inductive AlertLevel where
  | warn
  | crit
deriving Repr, DecidableEq

/-- `{ level: 'warn' | 'crit'; text: string }`. -/
structure Alert where
  level : AlertLevel
  text : String
deriving Repr, DecidableEq

/-- `buildAlerts(strategy, signals)` with `Date.now()` made explicit. -/
def buildAlerts (now : ℤ) (strategy : StrategyData) (signals : List SignalData) :
    List Alert :=
  let silence : List Alert :=
    match signals.head? with
    | some sig0 =>
      if strategy.enabled then
        let lastMins : ℚ := ((now - sig0.timestamp : ℤ) : ℚ) / 60000
        if SILENT_THRESHOLD_MIN * 2 < lastMins then
          [⟨AlertLevel.crit, "No signals for " ++ toString (jsRound lastMins) ++
            "m — strategy may be down"⟩]
        else if SILENT_THRESHOLD_MIN < lastMins then
          [⟨AlertLevel.warn, "No signals for " ++ toString (jsRound lastMins) ++ "m"⟩]
        else []
      else []
    | none =>
      if strategy.enabled then [⟨AlertLevel.warn, "No signals recorded yet"⟩] else []
  let drawdown : List Alert :=
    if 5 < strategy.maxDrawdown then
      [⟨AlertLevel.crit, "Max drawdown " ++ toFixedQ strategy.maxDrawdown 1 ++
        "% exceeds 5% limit"⟩]
    else if 3 < strategy.maxDrawdown then
      [⟨AlertLevel.warn, "Drawdown at " ++ toFixedQ strategy.maxDrawdown 1 ++ "%"⟩]
    else []
  let loss : List Alert :=
    if strategy.totalPnl < -500 then
      [⟨AlertLevel.crit, "Total P&L " ++ toFixedQ strategy.totalPnl 0 ++
        " below -$500 threshold"⟩]
    else []
  silence ++ drawdown ++ loss

/-- The empty response substituted by
`fetchStrategySignals(s.name).catch(() => ({signals: [], total: 0, limit: 100, offset: 0}))`. -/
def emptySignalsResponse : SignalsResponse := ⟨[], 0, 100, 0⟩

/-- The StrategyHealth per-strategy signals fan-out: every sub-request
carries its own `.catch`, so the `Promise.all` never rejects. -/
def fetchSignalsWithCatch (env : ApiEnv) (strategies : List StrategyData) :
    List SignalsResponse :=
  strategies.map fun s =>
    match env.signalsResult s.name with
    | Except.ok r => r
    | Except.error _ => emptySignalsResponse

/-! ## EquityCurve drawdown series (part_007)

`allRows` is the `useMemo` that turns the fetched `EquityCurvePoint` list
into chart rows, threading a running peak that starts at `-Infinity`
(modelled as `Option ℚ` with `none` for `-Infinity`).  The locale-formatted
`label` field is pure rendering and is omitted. -/

/-- `EquityCurvePoint` from `api.ts`, timestamp as epoch ms. -/
structure EquityCurvePoint where
  timestamp : ℤ
  totalEquity : ℚ
  unrealisedPnl : ℚ
  realisedPnl : ℚ
  openPositions : ℕ
deriving Repr, DecidableEq, Inhabited

/-- `ChartRow` from part_007 (minus the rendered `label`). -/
structure ChartRow where
  ts : ℤ
  totalEquity : ℚ
  unrealisedPnl : ℚ
  realisedPnl : ℚ
  drawdown : ℚ
deriving Repr, DecidableEq, Inhabited

/-- `if (p.totalEquity > peak) peak = p.totalEquity`, with `none` playing
the role of the initial `-Infinity`. -/
def peakUpdate : Option ℚ → ℚ → ℚ
  | none, e => e
  | some peak, e => if peak < e then e else peak

/-- The row-building loop of the `allRows` `useMemo`. -/
def chartRows : Option ℚ → List EquityCurvePoint → List ChartRow
  | _, [] => []
  | peak, p :: rest =>
    let pk := peakUpdate peak p.totalEquity
    { ts := p.timestamp
      totalEquity := p.totalEquity
      unrealisedPnl := p.unrealisedPnl
      realisedPnl := p.realisedPnl
      drawdown := if 0 < pk then (p.totalEquity - pk) / pk * 100 else 0 } ::
      chartRows (some pk) rest

/-- `allRows`: the whole chart-row series with `peak = -Infinity` initially. -/
def allRows (raw : List EquityCurvePoint) : List ChartRow := chartRows none raw

/-- Spec-side definition, for comparison with the code: the running maximum
of `totalEquity` over the points up to and including index `i`
("the running peak of totalEquity so far"). -/
def runningPeak (raw : List EquityCurvePoint) (i : ℕ) : ℚ :=
  match (raw.take (i + 1)).map EquityCurvePoint.totalEquity with
  | [] => 0
  | e :: es => es.foldl max e

/-- The running peak seen by `chartRows` when it starts from accumulator
`peak`: the prefix maximum, joined with the accumulator when present. -/
def peakWith : Option ℚ → List EquityCurvePoint → ℕ → ℚ
  | none, raw, i => runningPeak raw i
  | some a, raw, i => max a (runningPeak raw i)

/-! ## TradeExplorer filter pipeline (part_010) -/

/-- `type PnlFilter = 'all' | 'winners' | 'losers'`. -/
inductive PnlFilter where
  | all
  | winners
  | losers
deriving Repr, DecidableEq

/-- The five filter controls of TradeExplorer.  The two string selects use
the `'all'` sentinel exactly as the code does; the date inputs are modelled
as already-parsed epoch ms (`none` for the empty string, whose JS falsiness
skips the stage). -/
structure TradeFilters where
  strategyFilter : String
  assetFilter : String
  pnlFilter : PnlFilter
  dateFrom : Option ℤ
  dateTo : Option ℤ
deriving Repr, DecidableEq

/-- The filtering stage of the `rows` `useMemo`, applying the five filters
in the source's order (strategy, asset, P&L sign, from-date, to-date). -/
def filterRows (f : TradeFilters) (trades : List TradeWithStrategy) :
    List TradeWithStrategy :=
  let l1 := if f.strategyFilter != "all" then
    trades.filter (fun t => t.strategy == f.strategyFilter) else trades
  let l2 := if f.assetFilter != "all" then
    l1.filter (fun t => t.asset == f.assetFilter) else l1
  let l3 := match f.pnlFilter with
    | PnlFilter.winners => l2.filter fun t => decide (0 < t.realisedPnl)
    | PnlFilter.losers => l2.filter fun t => decide (t.realisedPnl < 0)
    | PnlFilter.all => l2
  let l4 := match f.dateFrom with
    | some fromTs => l3.filter fun t => decide (fromTs ≤ t.entryTime)
    | none => l3
  match f.dateTo with
  | some toTs => l4.filter fun t => decide (t.entryTime < toTs + 86400000)
  | none => l4

/-- The same five stages applied in the reverse order (to-date first,
strategy last). -/
def filterRowsRev (f : TradeFilters) (trades : List TradeWithStrategy) :
    List TradeWithStrategy :=
  let l1 := match f.dateTo with
    | some toTs => trades.filter fun t => decide (t.entryTime < toTs + 86400000)
    | none => trades
  let l2 := match f.dateFrom with
    | some fromTs => l1.filter fun t => decide (fromTs ≤ t.entryTime)
    | none => l1
  let l3 := match f.pnlFilter with
    | PnlFilter.winners => l2.filter fun t => decide (0 < t.realisedPnl)
    | PnlFilter.losers => l2.filter fun t => decide (t.realisedPnl < 0)
    | PnlFilter.all => l2
  let l4 := if f.assetFilter != "all" then
    l3.filter (fun t => t.asset == f.assetFilter) else l3
  if f.strategyFilter != "all" then
    l4.filter (fun t => t.strategy == f.strategyFilter) else l4

/-- The conjunction of the five individual filter predicates. -/
def matchesFilters (f : TradeFilters) (t : TradeWithStrategy) : Bool :=
  (f.strategyFilter == "all" || t.strategy == f.strategyFilter) &&
  (f.assetFilter == "all" || t.asset == f.assetFilter) &&
  (match f.pnlFilter with
   | PnlFilter.all => true
   | PnlFilter.winners => decide (0 < t.realisedPnl)
   | PnlFilter.losers => decide (t.realisedPnl < 0)) &&
  (match f.dateFrom with
   | none => true
   | some fromTs => decide (fromTs ≤ t.entryTime)) &&
  (match f.dateTo with
   | none => true
   | some toTs => decide (t.entryTime < toTs + 86400000))

/-! ## Per-view polling lifecycle and staleness guard (part_010 / part_005)

Each load effect owns a mutable closure flag `active`, set to `false` by the
cleanup that runs on unmount or when the `platform` dependency changes.  A
fetch cycle's completion handler reads the flag and returns without touching
state when it is `false` (`if (!active) return`, and `if (active)
setLoading(false)` in the `finally`). -/

/-- The React state the TradeExplorer load effect writes. -/
structure ViewState where
  trades : List TradeWithStrategy
  error : Option String
  loading : Bool
  lastUpdate : Option ℤ
deriving Repr, DecidableEq

/-- The commit path of one fetch cycle: `setTrades`/`setLastUpdate`/
`setError(null)` on success, `setError` on failure, `setLoading(false)` in
the `finally` — each guarded by the current value of `active`. -/
def loadComplete (active : Bool) (result : Except String (List TradeWithStrategy))
    (now : ℤ) (v : ViewState) : ViewState :=
  if active then
    match result with
    | Except.ok data =>
      { v with trades := data, lastUpdate := some now, error := none, loading := false }
    | Except.error e => { v with error := some e, loading := false }
  else v

/-- One effect instance: its staleness flag plus the view state it owns. -/
structure TaskState where
  active : Bool
  view : ViewState
deriving Repr, DecidableEq

/-- Observable events of the effect's lifetime: a fetch cycle completing
(possibly long after it was issued) or the cleanup cancelling the task. -/
inductive ViewEvent where
  | complete (result : Except String (List TradeWithStrategy)) (now : ℤ)
  | cancel

/-- Event semantics: cancellation clears the flag; a completion commits
through `loadComplete` under the flag's current value. -/
def stepView : TaskState → ViewEvent → TaskState
  | s, ViewEvent.cancel => { s with active := false }
  | s, ViewEvent.complete r now => { s with view := loadComplete s.active r now s.view }

/-- Run a sequence of events. -/
def runView (s : TaskState) (events : List ViewEvent) : TaskState :=
  events.foldl stepView s

/-! ## Legacy `/api/alerts` JSONL handler (part_000) -/

/-- `content.split('\n').filter(l => l.trim())` — the non-blank lines. -/
def nonBlankLines (content : String) : List String :=
  (content.splitOn "\n").filter fun l => l.trim != ""

/-- `lines.map(line => { try { return JSON.parse(line) } catch { return null } })
.filter(Boolean)`: parse each line, drop the failures.  The external
`JSON.parse` is the `parse` parameter; `none` is a parse failure. -/
def parsedRecords (parse : String → Option α) (lines : List String) : List α :=
  ((lines.filter fun l => l.trim != "").map parse).filterMap id

/-- All parsed records of a JSONL file body. -/
def alertsFromContent (parse : String → Option α) (content : String) : List α :=
  parsedRecords parse (content.splitOn "\n")

/-- `l.slice(-n)`: the last `n` elements (the whole list when shorter). -/
def sliceLast (n : ℕ) (l : List α) : List α := l.drop (l.length - n)

/-- The `/api/alerts` handler: `[]` when the file is missing, otherwise the
last 100 parsed records (`alerts.slice(-100)`). -/
def alertsHandler (parse : String → Option α) (fileExists : Bool)
    (content : String) : List α :=
  if fileExists then sliceLast 100 (alertsFromContent parse content) else []

/-! ## Concrete fixtures for counterexamples and witnesses -/

/-- A strategy record with the interesting fields exposed and everything
else benign. -/
def baseStrategy (name : String) (enabled : Bool) (maxDrawdown totalPnl : ℚ) :
    StrategyData :=
  { name := name, enabled := enabled, totalTrades := 0, winRate := 0, avgWin := 0,
    avgLoss := 0, totalPnl := totalPnl, profitFactor := 0, sharpeRatio := 0,
    sortinoRatio := 0, maxDrawdown := maxDrawdown, expectancy := 0,
    avgHoldMinutes := 0, exchanges := some ["polymarket"] }

/-- A signal emitted at instant 0. -/
def recentSignal : SignalData :=
  { id := 1, timestamp := 0, asset := "BTC", exchange := "hyperliquid",
    direction := "LONG", confidence := 1, entryPrice := 0, actedOn := true }

/-- A signal at an arbitrary instant. -/
def signalAt (ts : ℤ) : SignalData := { recentSignal with id := ts, timestamp := ts }

/-- A closed sample trade. -/
def sampleTrade : TradeData :=
  { id := 1, asset := "BTC", exchange := "hyperliquid", direction := "LONG",
    entryPrice := 10, entryTime := 0, quantity := 1, exitPrice := some 11,
    exitTime := some 60000, exitReason := some "tp", realisedPnl := 5,
    status := "CLOSED" }

/-- Strategy "alpha", whose trades sub-fetch succeeds. -/
def exStratA : StrategyData := baseStrategy "alpha" true 0 0

/-- Strategy "beta", whose trades sub-fetch fails. -/
def exStratB : StrategyData := baseStrategy "beta" true 0 0

/-- An environment in which exactly one strategy's ("beta") per-strategy
trades sub-fetch fails while the other succeeds. -/
def failingEnv : ApiEnv :=
  { strategiesResult := Except.ok [exStratA, exStratB]
    tradesResult := fun n =>
      if n == "alpha" then Except.ok [sampleTrade] else Except.error "API 500"
    signalsResult := fun _ => Except.error "API 500" }

/-- A tiny stand-in for `JSON.parse` on two well-formed lines. -/
def exParse : String → Option ℕ := fun s =>
  if s = "rec1" then some 1 else if s = "rec2" then some 2 else none

/-- A three-point equity curve: rise to a peak, then a 25% drawdown. -/
def exCurve : List EquityCurvePoint :=
  [ { timestamp := 0, totalEquity := 100, unrealisedPnl := 0, realisedPnl := 0,
      openPositions := 0 },
    { timestamp := 1, totalEquity := 120, unrealisedPnl := 0, realisedPnl := 0,
      openPositions := 0 },
    { timestamp := 2, totalEquity := 90, unrealisedPnl := 0, realisedPnl := 0,
      openPositions := 0 } ]

/-! ## Theorems -/

/-- Once a task's staleness flag is down, no later event changes it. -/
lemma runView_frozen (events : List ViewEvent) :
    ∀ s : TaskState, s.active = false → runView s events = s := by
  induction events with
  | nil => intro s _; rfl
  | cons e tr ih =>
    intro s h
    have hs : stepView s e = s := by
      cases e with
      | cancel => cases s; simp_all [stepView]
      | complete r now => cases s; simp_all [stepView, loadComplete]
    show runView (stepView s e) tr = s
    rw [hs]
    exact ih s h

/-- C7: after a view's task is cancelled, no fetch cycle that was still in
flight ever commits: every completion observes the cleared `active` flag and
leaves the view state exactly as it was at cancellation time. -/
theorem stale_completion_never_commits (s : TaskState) (events : List ViewEvent) :
    (runView (stepView s ViewEvent.cancel) events).view = s.view := by
  rw [runView_frozen events (stepView s ViewEvent.cancel) rfl]
  rfl

/-- C10: `fetchStrategiesByPlatform` returns exactly the order-preserving
sublist of strategies whose `exchanges` contains the platform; a strategy
with a missing `exchanges` field is silently excluded rather than an error. -/
theorem strategiesByPlatform_spec (platform : String) (all : List StrategyData) :
    (strategiesByPlatform platform all).Sublist all ∧
    (∀ s, s ∈ strategiesByPlatform platform all ↔
      s ∈ all ∧ ∃ ex, s.exchanges = some ex ∧ platform ∈ ex) ∧
    (∀ s, s.exchanges = none → s ∉ strategiesByPlatform platform all) ∧
    (∀ (env : ApiEnv) ss, env.strategiesResult = Except.ok ss →
      fetchStrategiesByPlatform env platform = Except.ok (strategiesByPlatform platform ss)) := by
  refine ⟨List.filter_sublist all, ?_, ?_, ?_⟩
  · intro s
    rw [strategiesByPlatform, List.mem_filter]
    refine and_congr_right fun _ => ?_
    cases hex : s.exchanges with
    | none => simp
    | some ex => simp [List.elem_iff]
  · intro s hnone hmem
    rw [strategiesByPlatform, List.mem_filter, hnone] at hmem
    simp at hmem
  · intro env ss h
    unfold fetchStrategiesByPlatform
    rw [h]
    rfl

/-- Witness for `strategiesByPlatform_spec` at a concrete environment. -/
theorem strategiesByPlatform_spec_witness :
    failingEnv.strategiesResult = Except.ok [exStratA, exStratB] ∧
    fetchStrategiesByPlatform failingEnv "polymarket" =
      Except.ok (strategiesByPlatform "polymarket" [exStratA, exStratB]) :=
  ⟨rfl, (strategiesByPlatform_spec "polymarket" [exStratA, exStratB]).2.2.2
    failingEnv [exStratA, exStratB] rfl⟩

/-- C9: every JSONL line that fails to parse is skipped without aborting the
read — the output is exactly the parses of the remaining non-blank lines in
order — and the legacy `/api/alerts` handler serves the last 100 records. -/
theorem jsonl_parse_skip_spec {α : Type} (parse : String → Option α) :
    (∀ l1 l2 bad, parse bad = none →
      parsedRecords parse (l1 ++ bad :: l2) =
        parsedRecords parse l1 ++ parsedRecords parse l2) ∧
    (∀ lines, parsedRecords parse lines =
      (lines.filter fun l => l.trim != "").filterMap parse) ∧
    (∀ content, alertsHandler parse true content =
      sliceLast 100 (alertsFromContent parse content)) ∧
    (∀ content, alertsHandler parse false content = []) := by
  refine ⟨?_, ?_, fun _ => rfl, fun _ => rfl⟩
  · intro l1 l2 bad hbad
    unfold parsedRecords
    rw [List.filter_append]
    cases hb : bad.trim != "" with
    | true => simp [List.filter_cons, hb, hbad]
    | false => simp [List.filter_cons, hb]
  · intro lines
    unfold parsedRecords
    induction (lines.filter fun l => l.trim != "") with
    | nil => rfl
    | cons x xs ih =>
      cases hx : parse x <;> simp [List.filterMap_cons, hx, ih]

/-- Witness for `jsonl_parse_skip_spec`: a corrupt middle line is dropped
while the records around it survive. -/
theorem jsonl_parse_skip_spec_witness :
    exParse "oops" = none ∧
    parsedRecords exParse (["rec1"] ++ "oops" :: ["rec2"]) =
      parsedRecords exParse ["rec1"] ++ parsedRecords exParse ["rec2"] :=
  ⟨rfl, (jsonl_parse_skip_spec exParse).1 ["rec1"] ["rec2"] "oops" rfl⟩

/-- A `Promise.all` rejects whenever any of its promises rejects. -/
lemma promiseAll_error_of_mem {α : Type} {rs : List (Except String α)} {e : String}
    (h : Except.error e ∈ rs) : ∃ e2, promiseAll rs = Except.error e2 := by
  induction rs with
  | nil => cases h
  | cons r rs ih =>
    cases r with
    | error e3 => exact ⟨e3, rfl⟩
    | ok x =>
      rcases List.mem_cons.mp h with h1 | h2
      · simp at h1
      · obtain ⟨e2, he⟩ := ih h2
        exact ⟨e2, by simp only [promiseAll, he]; rfl⟩

/-- `x >>= (pure ∘ f)` is `Except.map f x`. -/
lemma exceptBindPure {β γ : Type} (x : Except String β) (f : β → γ) :
    (x >>= fun b => pure (f b) : Except String γ) = Except.map f x := by
  cases x <;> rfl

/-- Evaluation of `fetchAllTrades` once the strategy list resolved. -/
lemma fetchAllTrades_eq (env : ApiEnv) (ss : List StrategyData)
    (h : env.strategiesResult = Except.ok ss) :
    fetchAllTrades env =
      Except.map List.flatten
        (promiseAll (ss.map fun s => (env.tradesResult s.name).map (tagTrades s.name))) := by
  unfold fetchAllTrades
  rw [h]
  exact exceptBindPure _ _

/-- Evaluation of `fetchTradesByPlatform` once the strategy list resolved. -/
lemma fetchTradesByPlatform_eq (env : ApiEnv) (platform : String)
    (ss : List StrategyData) (h : env.strategiesResult = Except.ok ss) :
    fetchTradesByPlatform env platform =
      Except.map List.flatten
        (promiseAll ((strategiesByPlatform platform ss).map
          fun s => (env.tradesResult s.name).map (tagTrades s.name))) := by
  have hsp : fetchStrategiesByPlatform env platform =
      Except.ok (strategiesByPlatform platform ss) := by
    unfold fetchStrategiesByPlatform
    rw [h]
    rfl
  unfold fetchTradesByPlatform
  rw [hsp]
  exact exceptBindPure _ _

/-- Counterexample to the claim that the trade aggregation survives one
strategy's sub-fetch failure: in `failingEnv` only "beta" fails, yet
`fetchAllTrades` rejects as a whole instead of returning "alpha"'s trades. -/
theorem fetchAllTrades_partial_failure_rejects :
    fetchAllTrades failingEnv = Except.error "API 500" := rfl

/-- C1 amended: the trade aggregation does not isolate per-strategy
failures — if any strategy's trades sub-fetch fails, `fetchAllTrades` and
`fetchTradesByPlatform` reject as a whole and the error surfaces to the
caller. -/
theorem trade_aggregation_failure_surfaces (env : ApiEnv) (ss : List StrategyData)
    (s : StrategyData) (e : String)
    (hss : env.strategiesResult = Except.ok ss) (hmem : s ∈ ss)
    (hfail : env.tradesResult s.name = Except.error e) :
    (∃ e2, fetchAllTrades env = Except.error e2) ∧
    (∀ platform, s ∈ strategiesByPlatform platform ss →
      ∃ e2, fetchTradesByPlatform env platform = Except.error e2) := by
  have key : ∀ l : List StrategyData, s ∈ l →
      ∃ e2, promiseAll (l.map fun st => (env.tradesResult st.name).map (tagTrades st.name)) =
        Except.error e2 := by
    intro l hl
    apply promiseAll_error_of_mem (e := e)
    exact List.mem_map.mpr ⟨s, hl, by
      show (env.tradesResult s.name).map (tagTrades s.name) = Except.error e
      rw [hfail]; rfl⟩
  constructor
  · obtain ⟨e2, he⟩ := key ss hmem
    rw [fetchAllTrades_eq env ss hss, he]
    exact ⟨e2, rfl⟩
  · intro platform hpl
    obtain ⟨e2, he⟩ := key _ hpl
    rw [fetchTradesByPlatform_eq env platform ss hss, he]
    exact ⟨e2, rfl⟩

/-- Witness for `trade_aggregation_failure_surfaces` on `failingEnv`. -/
theorem trade_aggregation_failure_surfaces_witness :
    failingEnv.strategiesResult = Except.ok [exStratA, exStratB] ∧
    exStratB ∈ [exStratA, exStratB] ∧
    failingEnv.tradesResult exStratB.name = Except.error "API 500" ∧
    ∃ e2, fetchAllTrades failingEnv = Except.error e2 :=
  ⟨rfl, List.mem_cons_of_mem exStratA (List.mem_cons_self exStratB []), rfl,
    (trade_aggregation_failure_surfaces failingEnv [exStratA, exStratB] exStratB
      "API 500" rfl (List.mem_cons_of_mem exStratA (List.mem_cons_self exStratB []))
      rfl).1⟩

/-- Counterexample to "disabled strategies produce no alerts": a disabled
strategy with a deep drawdown and a large loss still gets both the drawdown
crit and the P&L crit. -/
theorem buildAlerts_disabled_not_empty :
    ((buildAlerts 0 (baseStrategy "dead" false 10 (-1000)) []).map Alert.level =
      [AlertLevel.crit, AlertLevel.crit]) ∧
    buildAlerts 0 (baseStrategy "dead" false 10 (-1000)) [] ≠ [] := by
  have h : buildAlerts 0 (baseStrategy "dead" false 10 (-1000)) [] =
      [⟨AlertLevel.crit, "Max drawdown " ++ toFixedQ 10 1 ++ "% exceeds 5% limit"⟩,
       ⟨AlertLevel.crit, "Total P&L " ++ toFixedQ (-1000) 0 ++ " below -$500 threshold"⟩] := by
    norm_num [buildAlerts, baseStrategy]
  rw [h]
  exact ⟨rfl, by simp⟩

/-- C2 amended: for a disabled strategy `buildAlerts` emits no silence
alerts (neither staleness nor "No signals recorded yet") regardless of the
signal history, but the drawdown and P&L rules are still evaluated. -/
theorem buildAlerts_disabled_amended (now : ℤ) (s : StrategyData)
    (signals : List SignalData) (h : s.enabled = false) :
    buildAlerts now s signals =
      (if 5 < s.maxDrawdown then
        [⟨AlertLevel.crit,
          "Max drawdown " ++ toFixedQ s.maxDrawdown 1 ++ "% exceeds 5% limit"⟩]
      else if 3 < s.maxDrawdown then
        [⟨AlertLevel.warn, "Drawdown at " ++ toFixedQ s.maxDrawdown 1 ++ "%"⟩]
      else []) ++
      (if s.totalPnl < -500 then
        [⟨AlertLevel.crit,
          "Total P&L " ++ toFixedQ s.totalPnl 0 ++ " below -$500 threshold"⟩]
      else []) := by
  unfold buildAlerts
  cases hh : signals.head? <;> simp [h]

/-- Witness for `buildAlerts_disabled_amended`: a disabled strategy at 4%
drawdown still gets the drawdown warn alert. -/
theorem buildAlerts_disabled_amended_witness :
    (baseStrategy "off" false 4 0).enabled = false ∧
    buildAlerts 7 (baseStrategy "off" false 4 0) [recentSignal] =
      [⟨AlertLevel.warn, "Drawdown at " ++ toFixedQ 4 1 ++ "%"⟩] :=
  ⟨rfl, by
    have h := buildAlerts_disabled_amended 7 (baseStrategy "off" false 4 0)
      [recentSignal] rfl
    rw [h]
    norm_num [baseStrategy]⟩

/-- C4: the alert thresholds are strict comparisons — `maxDrawdown = 5`
gives the warn alert and no crit, `5.01` gives the crit, `totalPnl = -500`
gives no P&L alert, `-500.01` gives the P&L crit. -/
theorem buildAlerts_threshold_boundaries :
    ((buildAlerts 0 (baseStrategy "s" true 5 0) [recentSignal]).map Alert.level
      = [AlertLevel.warn]) ∧
    ((buildAlerts 0 (baseStrategy "s" true 5.01 0) [recentSignal]).map Alert.level
      = [AlertLevel.crit]) ∧
    (buildAlerts 0 (baseStrategy "s" true 0 (-500)) [recentSignal] = []) ∧
    ((buildAlerts 0 (baseStrategy "s" true 0 (-500.01)) [recentSignal]).map Alert.level
      = [AlertLevel.crit]) := by
  refine ⟨?_, ?_, ?_, ?_⟩ <;>
    norm_num [buildAlerts, baseStrategy, recentSignal, SILENT_THRESHOLD_MIN]

/-- Counterexample to "`timeAgo` returns "just now" for every non-positive
delta": at a delta of exactly 0 the guard `ms < 0` is strict and the
function formats "0s ago" instead. -/
theorem timeAgo_zero_delta_not_just_now :
    timeAgo 5 5 = "0s ago" ∧ timeAgo 5 5 ≠ "just now" ∧
    timeAgo 59600 0 = "1m ago" := by
  have h : timeAgo 5 5 = "0s ago" := by
    have hz : jsRound (((5 - 5 : ℤ) : ℚ) / 1000) = 0 := by norm_num [jsRound]
    simp only [timeAgo]
    rw [if_neg (by omega), hz, if_pos (by norm_num)]
    rfl
  have h2 : timeAgo 59600 0 = "1m ago" := by
    have hS : jsRound (((59600 - 0 : ℤ) : ℚ) / 1000) = 60 := by norm_num [jsRound]
    have hM : jsRound (((60 : ℤ) : ℚ) / 60) = 1 := by norm_num [jsRound]
    simp only [timeAgo]
    rw [if_neg (by omega), hS, if_neg (by omega), hM, if_pos (by omega)]
    rfl
  exact ⟨h, by rw [h]; decide, h2⟩

/-- C3 amended: `timeAgo` returns "just now" only for strictly negative
deltas; a delta of exactly 0 formats as "0s ago", and positive deltas
format as rounded seconds (< 60s), rounded minutes (< 60m), or hours with
the minutes part suppressed when it is zero. -/
theorem timeAgo_amended (now ts : ℤ) :
    (now - ts < 0 → timeAgo now ts = "just now") ∧
    (now - ts = 0 → timeAgo now ts = "0s ago") ∧
    (0 ≤ now - ts → jsRound (((now - ts : ℤ) : ℚ) / 1000) < 60 →
      timeAgo now ts = toString (jsRound (((now - ts : ℤ) : ℚ) / 1000)) ++ "s ago") ∧
    (0 ≤ now - ts → 60 ≤ jsRound (((now - ts : ℤ) : ℚ) / 1000) →
      jsRound ((jsRound (((now - ts : ℤ) : ℚ) / 1000) : ℚ) / 60) < 60 →
      timeAgo now ts =
        toString (jsRound ((jsRound (((now - ts : ℤ) : ℚ) / 1000) : ℚ) / 60)) ++ "m ago") ∧
    (0 ≤ now - ts → 60 ≤ jsRound (((now - ts : ℤ) : ℚ) / 1000) →
      60 ≤ jsRound ((jsRound (((now - ts : ℤ) : ℚ) / 1000) : ℚ) / 60) →
      0 < jsRound ((jsRound (((now - ts : ℤ) : ℚ) / 1000) : ℚ) / 60) % 60 →
      timeAgo now ts =
        toString (jsRound ((jsRound (((now - ts : ℤ) : ℚ) / 1000) : ℚ) / 60) / 60) ++
        "h " ++
        toString (jsRound ((jsRound (((now - ts : ℤ) : ℚ) / 1000) : ℚ) / 60) % 60) ++
        "m ago") ∧
    (0 ≤ now - ts → 60 ≤ jsRound (((now - ts : ℤ) : ℚ) / 1000) →
      60 ≤ jsRound ((jsRound (((now - ts : ℤ) : ℚ) / 1000) : ℚ) / 60) →
      jsRound ((jsRound (((now - ts : ℤ) : ℚ) / 1000) : ℚ) / 60) % 60 = 0 →
      timeAgo now ts =
        toString (jsRound ((jsRound (((now - ts : ℤ) : ℚ) / 1000) : ℚ) / 60) / 60) ++
        "h ago") := by
  refine ⟨?_, ?_, ?_, ?_, ?_, ?_⟩
  · intro h
    simp only [timeAgo]
    rw [if_pos h]
  · intro h
    have hz : jsRound (((now - ts : ℤ) : ℚ) / 1000) = 0 := by
      rw [h]; norm_num [jsRound]
    simp only [timeAgo]
    rw [if_neg (by omega), hz, if_pos (by norm_num)]
    rfl
  · intro h1 h2
    simp only [timeAgo]
    rw [if_neg (by omega), if_pos h2]
  · intro h1 h2 h3
    simp only [timeAgo]
    rw [if_neg (by omega), if_neg (by omega), if_pos h3]
  · intro h1 h2 h3 h4
    simp only [timeAgo]
    rw [if_neg (by omega), if_neg (by omega), if_neg (by omega), if_pos h4]
  · intro h1 h2 h3 h4
    simp only [timeAgo]
    rw [if_neg (by omega), if_neg (by omega), if_neg (by omega), if_neg (by omega)]

/-- Witness for `timeAgo_amended`: 65 minutes ago formats as "1h 5m ago". -/
theorem timeAgo_amended_witness :
    (0 : ℤ) ≤ 3900000 - 0 ∧ timeAgo 3900000 0 = "1h 5m ago" := by
  have hS : jsRound (((3900000 - 0 : ℤ) : ℚ) / 1000) = 3900 := by norm_num [jsRound]
  have hM : jsRound ((jsRound (((3900000 - 0 : ℤ) : ℚ) / 1000) : ℚ) / 60) = 65 := by
    rw [hS]; norm_num [jsRound]
  refine ⟨by norm_num, ?_⟩
  have h := (timeAgo_amended 3900000 0).2.2.2.2.1 (by norm_num)
    (by rw [hS]; norm_num) (by rw [hM]; norm_num) (by rw [hM]; norm_num)
  rw [h, hM]
  decide

/-- C5: `computeSignalsPerHour` is 0 for fewer than two signals; for a
newest-first list it is `count / ((newestTs - oldestTs) / 3600000)` when
that span is positive, and 0 when the span is non-positive. -/
theorem computeSignalsPerHour_spec (signals : List SignalData) :
    (signals.length < 2 → computeSignalsPerHour signals = 0) ∧
    (∀ first rest oldest, signals = first :: rest →
      signals.getLast? = some oldest → 2 ≤ signals.length →
      ((((first.timestamp - oldest.timestamp : ℤ) : ℚ) / 3600000 ≤ 0 →
        computeSignalsPerHour signals = 0) ∧
       (0 < (((first.timestamp - oldest.timestamp : ℤ) : ℚ) / 3600000) →
        computeSignalsPerHour signals =
          (signals.length : ℚ) /
            (((first.timestamp - oldest.timestamp : ℤ) : ℚ) / 3600000)))) := by
  constructor
  · intro h
    unfold computeSignalsPerHour
    rw [if_pos h]
  · intro first rest oldest hcons hlast hlen
    have hhead : signals.head? = some first := by rw [hcons]; rfl
    unfold computeSignalsPerHour
    rw [if_neg (by omega), hhead, hlast]
    dsimp only
    constructor
    · intro hsp
      rw [if_pos hsp]
    · intro hsp
      rw [if_neg (not_le.mpr hsp)]

/-- Witness for `computeSignalsPerHour_spec`: two signals one hour apart
give a cadence of 2 per hour. -/
theorem computeSignalsPerHour_spec_witness :
    0 < (((signalAt 3600000).timestamp - (signalAt 0).timestamp : ℤ) : ℚ) / 3600000 ∧
    computeSignalsPerHour [signalAt 3600000, signalAt 0] = 2 := by
  have ht1 : (signalAt 3600000).timestamp = 3600000 := rfl
  have ht0 : (signalAt 0).timestamp = 0 := rfl
  have hpos : 0 < (((signalAt 3600000).timestamp - (signalAt 0).timestamp : ℤ) : ℚ) /
      3600000 := by
    rw [ht1, ht0]; norm_num
  refine ⟨hpos, ?_⟩
  have h := ((computeSignalsPerHour_spec [signalAt 3600000, signalAt 0]).2
    (signalAt 3600000) [signalAt 0] (signalAt 0) rfl rfl (by simp)).2 hpos
  rw [h, ht1, ht0]
  norm_num

/-- C8: the TradeExplorer filter pipeline computes exactly the logical AND
of the five individual predicates, and the result is the same in whatever
order the filter stages are applied (shown for the fully reversed order and
for swapping any two stages). -/
theorem filter_pipeline_is_conjunction (f : TradeFilters)
    (trades : List TradeWithStrategy) :
    filterRows f trades = trades.filter (matchesFilters f) ∧
    filterRowsRev f trades = filterRows f trades ∧
    (∀ p q : TradeWithStrategy → Bool,
      (trades.filter p).filter q = (trades.filter q).filter p) := by
  have hA : filterRows f trades = trades.filter (matchesFilters f) := by
    show filterRows f trades = trades.filter fun t => matchesFilters f t
    rcases f with ⟨sf, af, pf, df, dt⟩
    cases hs : sf == "all" <;> cases ha : af == "all" <;>
      cases pf <;> cases df <;> cases dt <;>
      simp [filterRows, matchesFilters, bne, hs, ha, List.filter_filter,
        Bool.and_comm, Bool.and_left_comm, Bool.and_assoc]
  have hB : filterRowsRev f trades = trades.filter (matchesFilters f) := by
    show filterRowsRev f trades = trades.filter fun t => matchesFilters f t
    rcases f with ⟨sf, af, pf, df, dt⟩
    cases hs : sf == "all" <;> cases ha : af == "all" <;>
      cases pf <;> cases df <;> cases dt <;>
      simp [filterRowsRev, matchesFilters, bne, hs, ha, List.filter_filter,
        Bool.and_comm, Bool.and_left_comm, Bool.and_assoc]
  refine ⟨hA, hB.trans hA.symm, ?_⟩
  intro p q
  rw [List.filter_filter, List.filter_filter]
  exact List.filter_congr fun a _ => Bool.and_comm _ _

/-- A fold of `max` dominates its initial accumulator. -/
lemma foldl_max_init_le (l : List ℚ) : ∀ b : ℚ, b ≤ l.foldl max b := by
  induction l with
  | nil => intro b; exact le_refl b
  | cons c l ih => intro b; exact le_trans (le_max_left b c) (ih (max b c))

/-- A fold of `max` dominates every list element. -/
lemma foldl_max_le_of_mem (l : List ℚ) : ∀ b a : ℚ, a ∈ l → a ≤ l.foldl max b := by
  induction l with
  | nil => intro _ _ h; cases h
  | cons c l ih =>
    intro b a h
    rcases List.mem_cons.mp h with rfl | h2
    · exact le_trans (le_max_right b a) (foldl_max_init_le l (max b a))
    · exact ih (max b c) a h2

/-- A fold of `max` is bounded by any common upper bound. -/
lemma foldl_max_le (l : List ℚ) : ∀ b c : ℚ, b ≤ c → (∀ x ∈ l, x ≤ c) →
    l.foldl max b ≤ c := by
  induction l with
  | nil => intro _ _ hb _; exact hb
  | cons d l ih =>
    intro b c hb hall
    exact ih (max b d) c (max_le hb (hall d (List.mem_cons_self d l)))
      fun x hx => hall x (List.mem_cons_of_mem d hx)

/-- Folding `max` from `max a b` peels `a` off the fold. -/
lemma foldl_max_assoc (l : List ℚ) : ∀ a b : ℚ, l.foldl max (max a b) = max a (l.foldl max b) := by
  induction l with
  | nil => intro _ _; rfl
  | cons c l ih =>
    intro a b
    show l.foldl max (max (max a b) c) = max a (l.foldl max (max b c))
    rw [max_assoc, ih]

/-- The code's peak update on a live accumulator is `max`. -/
lemma peakUpdate_some (a e : ℚ) : peakUpdate (some a) e = max a e := by
  show (if a < e then e else a) = max a e
  rcases le_or_lt e a with h | h
  · rw [if_neg (not_lt.mpr h), max_eq_left h]
  · rw [if_pos h, max_eq_right h.le]

/-- The chart-row series has one row per input point. -/
lemma chartRows_length (raw : List EquityCurvePoint) :
    ∀ peak, (chartRows peak raw).length = raw.length := by
  induction raw with
  | nil => intro _; rfl
  | cons p rest ih => intro peak; simp [chartRows, ih]

/-- The running peak at index 0 is the first point's equity. -/
lemma runningPeak_zero (p : EquityCurvePoint) (rest : List EquityCurvePoint) :
    runningPeak (p :: rest) 0 = p.totalEquity := rfl

/-- The running peak steps by joining the head's equity. -/
lemma runningPeak_succ (p : EquityCurvePoint) (rest : List EquityCurvePoint)
    (j : ℕ) (hj : j < rest.length) :
    runningPeak (p :: rest) (j + 1) = max p.totalEquity (runningPeak rest j) := by
  unfold runningPeak
  cases hr : (rest.take (j + 1)).map EquityCurvePoint.totalEquity with
  | nil =>
    exfalso
    have h1 := congrArg List.length hr
    simp only [List.length_map, List.length_take, List.length_nil] at h1
    omega
  | cons y ys =>
    have hmap : ((p :: rest).take (j + 1 + 1)).map EquityCurvePoint.totalEquity =
        p.totalEquity :: y :: ys := by
      rw [List.take_succ_cons, List.map_cons, hr]
    rw [hmap]
    dsimp only
    exact foldl_max_assoc ys p.totalEquity y

/-- `peakWith` at index 0 is the code's first peak update. -/
lemma peakWith_zero (peak : Option ℚ) (p : EquityCurvePoint)
    (rest : List EquityCurvePoint) :
    peakWith peak (p :: rest) 0 = peakUpdate peak p.totalEquity := by
  cases peak with
  | none => rfl
  | some a =>
    show max a (runningPeak (p :: rest) 0) = peakUpdate (some a) p.totalEquity
    rw [runningPeak_zero, peakUpdate_some]

/-- `peakWith` steps exactly as the loop's accumulator does. -/
lemma peakWith_cons (peak : Option ℚ) (p : EquityCurvePoint)
    (rest : List EquityCurvePoint) (j : ℕ) (hj : j < rest.length) :
    peakWith peak (p :: rest) (j + 1) =
      peakWith (some (peakUpdate peak p.totalEquity)) rest j := by
  cases peak with
  | none =>
    show runningPeak (p :: rest) (j + 1) =
      max (peakUpdate none p.totalEquity) (runningPeak rest j)
    rw [runningPeak_succ p rest j hj]
    rfl
  | some a =>
    show max a (runningPeak (p :: rest) (j + 1)) =
      max (peakUpdate (some a) p.totalEquity) (runningPeak rest j)
    rw [runningPeak_succ p rest j hj, peakUpdate_some, max_assoc]

/-- The drawdown stored in row `i` is the code's formula evaluated at the
running peak (joined with the starting accumulator). -/
lemma chartRows_drawdown (raw : List EquityCurvePoint) :
    ∀ (peak : Option ℚ) (i : ℕ), i < raw.length →
      ((chartRows peak raw).getD i default).drawdown =
        if 0 < peakWith peak raw i then
          ((raw.getD i default).totalEquity - peakWith peak raw i) /
            peakWith peak raw i * 100
        else 0 := by
  induction raw with
  | nil => intro _ i hi; exact absurd hi (Nat.not_lt_zero i)
  | cons p rest ih =>
    intro peak i hi
    cases i with
    | zero =>
      rw [peakWith_zero]
      simp [chartRows]
    | succ j =>
      have hj : j < rest.length := by simpa using hi
      rw [peakWith_cons peak p rest j hj]
      have hL : (chartRows peak (p :: rest)).getD (j + 1) default =
          (chartRows (some (peakUpdate peak p.totalEquity)) rest).getD j default := by
        simp [chartRows]
      rw [hL]
      have hR : (p :: rest).getD (j + 1) default = rest.getD j default := rfl
      rw [hR]
      exact ih (some (peakUpdate peak p.totalEquity)) j hj

/-- Each point's equity is below the running peak at its index. -/
lemma le_runningPeak (raw : List EquityCurvePoint) (i : ℕ) (hi : i < raw.length) :
    (raw.getD i default).totalEquity ≤ runningPeak raw i := by
  unfold runningPeak
  cases hr : (raw.take (i + 1)).map EquityCurvePoint.totalEquity with
  | nil =>
    exfalso
    have h1 := congrArg List.length hr
    simp only [List.length_map, List.length_take, List.length_nil] at h1
    omega
  | cons y ys =>
    dsimp only
    have hlen : i < (raw.take (i + 1)).length := by
      simp [List.length_take]
      omega
    have hget : (raw.take (i + 1)).getD i default = raw.getD i default := by
      rw [List.getD_eq_getElem _ _ hlen, List.getD_eq_getElem _ _ hi]
      exact List.getElem_take raw
    have hmem : (raw.getD i default).totalEquity ∈ y :: ys := by
      rw [← hr]
      refine List.mem_map.mpr ⟨raw.getD i default, ?_, rfl⟩
      rw [← hget, List.getD_eq_getElem _ _ hlen]
      exact List.getElem_mem hlen
    rcases List.mem_cons.mp hmem with heq | h2
    · rw [heq]
      exact foldl_max_init_le ys y
    · exact foldl_max_le_of_mem ys y _ h2

/-- The running peak is bounded by any bound on the prefix's equities. -/
lemma runningPeak_le (raw : List EquityCurvePoint) (i : ℕ) (hi : i < raw.length)
    (c : ℚ) (hall : ∀ j, j ≤ i → (raw.getD j default).totalEquity ≤ c) :
    runningPeak raw i ≤ c := by
  unfold runningPeak
  cases hr : (raw.take (i + 1)).map EquityCurvePoint.totalEquity with
  | nil =>
    exfalso
    have h1 := congrArg List.length hr
    simp only [List.length_map, List.length_take, List.length_nil] at h1
    omega
  | cons y ys =>
    dsimp only
    have hall2 : ∀ x ∈ y :: ys, x ≤ c := by
      intro x hx
      rw [← hr] at hx
      obtain ⟨pt, hpt, rfl⟩ := List.mem_map.mp hx
      rw [List.mem_take_iff_getElem] at hpt
      obtain ⟨j, hjlt, hpt⟩ := hpt
      have hji : j ≤ i := by omega
      have hjlen : j < raw.length := by omega
      have hb := hall j hji
      rw [List.getD_eq_getElem raw default hjlen, hpt] at hb
      exact hb
    exact foldl_max_le ys y c (hall2 y (List.mem_cons_self y ys))
      fun x hx => hall2 x (List.mem_cons_of_mem y hx)

/-- C6: each drawdown value equals `(equity - peak) / peak * 100` when the
running peak of `totalEquity` so far is positive and 0 otherwise; every
drawdown value is ≤ 0; and the drawdown is exactly 0 at any index holding
the running maximum equity-so-far. -/
theorem drawdown_series_spec (raw : List EquityCurvePoint) (i : ℕ)
    (hi : i < raw.length) :
    (((allRows raw).getD i default).drawdown =
      if 0 < runningPeak raw i then
        ((raw.getD i default).totalEquity - runningPeak raw i) /
          runningPeak raw i * 100
      else 0) ∧
    ((allRows raw).getD i default).drawdown ≤ 0 ∧
    ((∀ j, j ≤ i → (raw.getD j default).totalEquity ≤
        (raw.getD i default).totalEquity) →
      ((allRows raw).getD i default).drawdown = 0) := by
  have hfor : ((allRows raw).getD i default).drawdown =
      if 0 < runningPeak raw i then
        ((raw.getD i default).totalEquity - runningPeak raw i) /
          runningPeak raw i * 100
      else 0 := chartRows_drawdown raw none i hi
  refine ⟨hfor, ?_, ?_⟩
  · rw [hfor]
    split_ifs with h
    · have hle := le_runningPeak raw i hi
      have hnum : (raw.getD i default).totalEquity - runningPeak raw i ≤ 0 :=
        sub_nonpos.mpr hle
      have hdiv : ((raw.getD i default).totalEquity - runningPeak raw i) /
          runningPeak raw i ≤ 0 := div_nonpos_of_nonpos_of_nonneg hnum h.le
      exact mul_nonpos_iff.mpr (Or.inr ⟨hdiv, by norm_num⟩)
    · exact le_refl 0
  · intro hmax
    rw [hfor]
    have h1 := le_runningPeak raw i hi
    have h2 := runningPeak_le raw i hi _ hmax
    have heq : runningPeak raw i = (raw.getD i default).totalEquity :=
      le_antisymm h2 h1
    rw [heq]
    split_ifs with h
    · rw [sub_self, zero_div, zero_mul]
    · rfl

/-- Witness for `drawdown_series_spec` on a concrete three-point curve:
the trough's drawdown is non-positive and the peak's drawdown is 0. -/
theorem drawdown_series_spec_witness :
    2 < exCurve.length ∧
    ((allRows exCurve).getD 2 default).drawdown ≤ 0 ∧
    ((allRows exCurve).getD 1 default).drawdown = 0 := by
  refine ⟨by norm_num [exCurve], ?_, ?_⟩
  · exact (drawdown_series_spec exCurve 2 (by norm_num [exCurve])).2.1
  · apply (drawdown_series_spec exCurve 1 (by norm_num [exCurve])).2.2
    intro j hj
    interval_cases j <;> norm_num [exCurve]

end TradingDashboard
